import Mathlib

/-
Verification of the fang task-queue core (src/src/lib.rs): the configuration
surface (SleepParams with its backoff operations, RetentionMode, CronError,
Scheduled), a model of the ScheduleOnce branch of the schedule resolver, and
an interleaving model of the claim protocol run by concurrent workers.
-/

/-- Durations are modelled as a count of nanoseconds, as in Rust's
`std::time::Duration` (a non-negative quantity). -/
abbrev Duration := Nat

/-- Rust `Duration::from_secs`: a duration of `s` whole seconds. -/
def Duration.from_secs (s : Nat) : Duration := s * 1000000000

/-- Configuration parameters for putting workers to sleep while they
do not have any tasks to execute (struct `SleepParams`). -/
structure SleepParams where
  sleep_period : Duration
  max_sleep_period : Duration
  min_sleep_period : Duration
  sleep_step : Duration
deriving DecidableEq, Repr

/-- Reset the `sleep_period` if it differs from `min_sleep_period`
(`SleepParams::maybe_reset_sleep_period`). -/
def SleepParams.maybe_reset_sleep_period (p : SleepParams) : SleepParams :=
  if p.sleep_period ≠ p.min_sleep_period then
    { p with sleep_period := p.min_sleep_period }
  else p

/-- Increase the `sleep_period` by the `sleep_step` if the `max_sleep_period`
is not reached (`SleepParams::maybe_increase_sleep_period`). -/
def SleepParams.maybe_increase_sleep_period (p : SleepParams) : SleepParams :=
  if p.sleep_period < p.max_sleep_period then
    { p with sleep_period := p.sleep_period + p.sleep_step }
  else p

/-- The `Default` impl for `SleepParams`: 5s / 15s / 5s / 5s. -/
def SleepParams.default : SleepParams :=
  { sleep_period := Duration.from_secs 5,
    max_sleep_period := Duration.from_secs 15,
    min_sleep_period := Duration.from_secs 5,
    sleep_step := Duration.from_secs 5 }

/-- All options for retaining tasks in the db after their execution
(enum `RetentionMode`). -/
inductive RetentionMode where
  | KeepAll : RetentionMode
  | RemoveAll : RetentionMode
  | RemoveFinished : RetentionMode
deriving DecidableEq, Repr

/-- The `Default` impl for `RetentionMode`. -/
def RetentionMode.default : RetentionMode := RetentionMode.RemoveAll

/-- Errors that can occur while working with cron schedules (enum `CronError`).
The payload of `LibraryError` (an error of the external cron crate) is
modelled as its message string. -/
inductive CronError where
  | LibraryError (msg : String) : CronError
  | TaskNotSchedulableError : CronError
  | NoTimestampsError : CronError
deriving DecidableEq, Repr

/-- A schedule for scheduled tasks (enum `Scheduled`). Instants
(`DateTime<Utc>`) are modelled as integer timestamps. -/
inductive Scheduled where
  | CronPattern (expr : String) : Scheduled
  | ScheduleOnce (t : Int) : Scheduled
deriving DecidableEq, Repr

/-- Modelled from the spec: the `ScheduleOnce` branch of the Schedule
Resolver's `resolve(schedule, now)`, whose implementation lives in the
blocking/asynk modules that are not present under src/. Per the spec, if the
instant `t` is strictly in the future relative to `now`, return `t`;
otherwise fail with `NoTimestampsError`. -/
def resolveScheduleOnce (t now : Int) : Except CronError Int :=
  if now < t then Except.ok t else Except.error CronError.NoTimestampsError

/- Helper lemmas about the SleepParams operations. -/

theorem SleepParams.reset_period (p : SleepParams) :
    p.maybe_reset_sleep_period.sleep_period = p.min_sleep_period := by
  unfold SleepParams.maybe_reset_sleep_period
  by_cases h : p.sleep_period = p.min_sleep_period <;> simp [h]

theorem SleepParams.reset_max (p : SleepParams) :
    p.maybe_reset_sleep_period.max_sleep_period = p.max_sleep_period := by
  unfold SleepParams.maybe_reset_sleep_period
  by_cases h : p.sleep_period = p.min_sleep_period <;> simp [h]

theorem SleepParams.reset_min (p : SleepParams) :
    p.maybe_reset_sleep_period.min_sleep_period = p.min_sleep_period := by
  unfold SleepParams.maybe_reset_sleep_period
  by_cases h : p.sleep_period = p.min_sleep_period <;> simp [h]

theorem SleepParams.reset_step (p : SleepParams) :
    p.maybe_reset_sleep_period.sleep_step = p.sleep_step := by
  unfold SleepParams.maybe_reset_sleep_period
  by_cases h : p.sleep_period = p.min_sleep_period <;> simp [h]

theorem SleepParams.reset_eq_self_of_eq (p : SleepParams)
    (h : p.sleep_period = p.min_sleep_period) :
    p.maybe_reset_sleep_period = p := by
  unfold SleepParams.maybe_reset_sleep_period
  simp [h]

theorem SleepParams.inc_max (p : SleepParams) :
    p.maybe_increase_sleep_period.max_sleep_period = p.max_sleep_period := by
  unfold SleepParams.maybe_increase_sleep_period
  by_cases h : p.sleep_period < p.max_sleep_period <;> simp [h]

theorem SleepParams.inc_min (p : SleepParams) :
    p.maybe_increase_sleep_period.min_sleep_period = p.min_sleep_period := by
  unfold SleepParams.maybe_increase_sleep_period
  by_cases h : p.sleep_period < p.max_sleep_period <;> simp [h]

theorem SleepParams.inc_step (p : SleepParams) :
    p.maybe_increase_sleep_period.sleep_step = p.sleep_step := by
  unfold SleepParams.maybe_increase_sleep_period
  by_cases h : p.sleep_period < p.max_sleep_period <;> simp [h]

theorem SleepParams.inc_period_of_lt (p : SleepParams)
    (h : p.sleep_period < p.max_sleep_period) :
    p.maybe_increase_sleep_period.sleep_period = p.sleep_period + p.sleep_step := by
  unfold SleepParams.maybe_increase_sleep_period
  simp [h]

theorem SleepParams.inc_eq_self_of_ge (p : SleepParams)
    (h : ¬ p.sleep_period < p.max_sleep_period) :
    p.maybe_increase_sleep_period = p := by
  unfold SleepParams.maybe_increase_sleep_period
  simp [h]

/- Trajectory of repeated increases from the default parameters. -/

theorem iterate_increase_default_two :
    SleepParams.maybe_increase_sleep_period^[2] SleepParams.default =
      { sleep_period := 15000000000, max_sleep_period := 15000000000,
        min_sleep_period := 5000000000, sleep_step := 5000000000 } := by
  decide

theorem iterate_increase_default_ge_two (n : Nat) :
    SleepParams.maybe_increase_sleep_period^[n + 2] SleepParams.default =
      SleepParams.maybe_increase_sleep_period^[2] SleepParams.default := by
  induction n with
  | zero => rfl
  | succ m ih =>
    have h : m + 1 + 2 = (m + 2) + 1 := rfl
    rw [h, Function.iterate_succ_apply', ih, iterate_increase_default_two]
    decide

theorem iterate_increase_default_min (K : Nat) :
    (SleepParams.maybe_increase_sleep_period^[K] SleepParams.default).min_sleep_period
      = Duration.from_secs 5 := by
  induction K with
  | zero => decide
  | succ n ih => rw [Function.iterate_succ_apply', SleepParams.inc_min]; exact ih

/-- C2 counterexample: the invariant `sleep_period ≤ max_sleep_period` is NOT
preserved by `maybe_increase_sleep_period`: for sleep_period = 14,
max_sleep_period = 15, min_sleep_period = 5, sleep_step = 5 (which satisfies
min ≤ period ≤ max and step > 0) the call yields sleep_period = 19 > 15,
because the code adds the step without capping at the maximum. -/
theorem sleep_invariant_broken_by_increase :
    ¬ (∀ p : SleepParams,
        p.min_sleep_period ≤ p.sleep_period →
        p.sleep_period ≤ p.max_sleep_period →
        0 < p.sleep_step →
        (p.maybe_increase_sleep_period.min_sleep_period ≤
            p.maybe_increase_sleep_period.sleep_period ∧
         p.maybe_increase_sleep_period.sleep_period ≤
            p.maybe_increase_sleep_period.max_sleep_period)) := by
  intro h
  have hc := h (SleepParams.mk 14 15 5 5) (by decide) (by decide) (by decide)
  exact absurd hc.2 (by decide)

/-- C2 (amended): for every SleepParams with min_sleep_period ≤ sleep_period ≤
max_sleep_period and sleep_step > 0, maybe_reset_sleep_period preserves the
full invariant min ≤ sleep_period ≤ max, while maybe_increase_sleep_period
preserves min ≤ sleep_period and guarantees only sleep_period ≤
max_sleep_period + sleep_step: the period may overshoot the maximum by at
most one step, because the increase is not capped. -/
theorem sleep_ops_preserve_amended_invariant (p : SleepParams)
    (h1 : p.min_sleep_period ≤ p.sleep_period)
    (h2 : p.sleep_period ≤ p.max_sleep_period)
    (h3 : 0 < p.sleep_step) :
    (p.maybe_reset_sleep_period.min_sleep_period ≤
        p.maybe_reset_sleep_period.sleep_period ∧
     p.maybe_reset_sleep_period.sleep_period ≤
        p.maybe_reset_sleep_period.max_sleep_period) ∧
    (p.maybe_increase_sleep_period.min_sleep_period ≤
        p.maybe_increase_sleep_period.sleep_period ∧
     p.maybe_increase_sleep_period.sleep_period ≤
        p.maybe_increase_sleep_period.max_sleep_period +
          p.maybe_increase_sleep_period.sleep_step) := by
  refine ⟨⟨?_, ?_⟩, ?_, ?_⟩
  · rw [SleepParams.reset_period, SleepParams.reset_min]
  · rw [SleepParams.reset_period, SleepParams.reset_max]
    exact le_trans h1 h2
  · rw [SleepParams.inc_min]
    by_cases h : p.sleep_period < p.max_sleep_period
    · rw [SleepParams.inc_period_of_lt p h]
      exact le_trans h1 (Nat.le_add_right _ _)
    · rw [SleepParams.inc_eq_self_of_ge p h]; exact h1
  · rw [SleepParams.inc_max, SleepParams.inc_step]
    by_cases h : p.sleep_period < p.max_sleep_period
    · rw [SleepParams.inc_period_of_lt p h]
      exact Nat.add_le_add_right (le_of_lt h) _
    · rw [SleepParams.inc_eq_self_of_ge p h]
      exact le_trans h2 (Nat.le_add_right _ _)

/-- C2 witness: the amended invariant theorem instantiated at the concrete
parameters sleep_period = 14, max = 15, min = 5, step = 5. -/
theorem sleep_ops_preserve_amended_invariant_witness :
    (5 ≤ 14 ∧ 14 ≤ 15 ∧ 0 < 5) ∧
    (((SleepParams.mk 14 15 5 5).maybe_reset_sleep_period.min_sleep_period ≤
        (SleepParams.mk 14 15 5 5).maybe_reset_sleep_period.sleep_period ∧
      (SleepParams.mk 14 15 5 5).maybe_reset_sleep_period.sleep_period ≤
        (SleepParams.mk 14 15 5 5).maybe_reset_sleep_period.max_sleep_period) ∧
     ((SleepParams.mk 14 15 5 5).maybe_increase_sleep_period.min_sleep_period ≤
        (SleepParams.mk 14 15 5 5).maybe_increase_sleep_period.sleep_period ∧
      (SleepParams.mk 14 15 5 5).maybe_increase_sleep_period.sleep_period ≤
        (SleepParams.mk 14 15 5 5).maybe_increase_sleep_period.max_sleep_period +
          (SleepParams.mk 14 15 5 5).maybe_increase_sleep_period.sleep_step)) :=
  ⟨by decide,
   sleep_ops_preserve_amended_invariant (SleepParams.mk 14 15 5 5)
     (by decide) (by decide) (by decide)⟩

/-- C3 counterexample: with sleep_period = 14, max_sleep_period = 15,
sleep_step = 5, the increase yields 19, not min (14 + 5) 15 = 15, and the
result exceeds max_sleep_period: the increase is not capped at the maximum. -/
theorem maybe_increase_not_capped :
    (SleepParams.mk 14 15 5 5).maybe_increase_sleep_period.sleep_period = 19 ∧
    (SleepParams.mk 14 15 5 5).maybe_increase_sleep_period.sleep_period ≠
      min (14 + 5) 15 ∧
    ¬ (SleepParams.mk 14 15 5 5).maybe_increase_sleep_period.sleep_period ≤
      (SleepParams.mk 14 15 5 5).maybe_increase_sleep_period.max_sleep_period := by
  decide

/-- C3 (amended): for every SleepParams value, if sleep_period <
max_sleep_period then maybe_increase_sleep_period sets sleep_period to
sleep_period + sleep_step — not capped, so it may exceed max_sleep_period —
and otherwise leaves the value unchanged; consequently, whenever sleep_period
≤ max_sleep_period before the call, sleep_period ≤ max_sleep_period +
sleep_step after it. -/
theorem maybe_increase_behavior (p : SleepParams) :
    (p.sleep_period < p.max_sleep_period →
      p.maybe_increase_sleep_period.sleep_period = p.sleep_period + p.sleep_step) ∧
    (¬ p.sleep_period < p.max_sleep_period →
      p.maybe_increase_sleep_period = p) ∧
    (p.sleep_period ≤ p.max_sleep_period →
      p.maybe_increase_sleep_period.sleep_period ≤
        p.max_sleep_period + p.sleep_step) := by
  refine ⟨fun h => SleepParams.inc_period_of_lt p h,
          fun h => SleepParams.inc_eq_self_of_ge p h,
          fun h => ?_⟩
  by_cases hlt : p.sleep_period < p.max_sleep_period
  · rw [SleepParams.inc_period_of_lt p hlt]
    exact Nat.add_le_add_right (le_of_lt hlt) _
  · rw [SleepParams.inc_eq_self_of_ge p hlt]
    exact le_trans h (Nat.le_add_right _ _)

/-- C3 witness: the amended behavior theorem instantiated at the parameters
(14, 15, 5, 5), discharging the hypothesis of each conjunct: the first and
third at that value, the second at the saturated value (15, 15, 5, 5). -/
theorem maybe_increase_behavior_witness :
    ((SleepParams.mk 14 15 5 5).maybe_increase_sleep_period.sleep_period
        = 14 + 5) ∧
    ((SleepParams.mk 15 15 5 5).maybe_increase_sleep_period
        = SleepParams.mk 15 15 5 5) ∧
    ((SleepParams.mk 14 15 5 5).maybe_increase_sleep_period.sleep_period
        ≤ 15 + 5) :=
  ⟨(maybe_increase_behavior (SleepParams.mk 14 15 5 5)).1 (by decide),
   (maybe_increase_behavior (SleepParams.mk 15 15 5 5)).2.1 (by decide),
   (maybe_increase_behavior (SleepParams.mk 14 15 5 5)).2.2 (by decide)⟩

/-- C4: starting from the default SleepParams (period 5s, min 5s, step 5s,
max 15s), after K consecutive calls to maybe_increase_sleep_period the
sleep_period equals min (5 + 5 * K) 15 seconds, for every K ≥ 0, and one
subsequent call to maybe_reset_sleep_period sets sleep_period back to 5
seconds. -/
theorem default_backoff_trajectory (K : Nat) :
    (SleepParams.maybe_increase_sleep_period^[K] SleepParams.default).sleep_period
      = Duration.from_secs (min (5 + 5 * K) 15) ∧
    ((SleepParams.maybe_increase_sleep_period^[K]
        SleepParams.default).maybe_reset_sleep_period).sleep_period
      = Duration.from_secs 5 := by
  constructor
  · match K with
    | 0 => decide
    | 1 => decide
    | (n + 2) =>
      rw [iterate_increase_default_ge_two, iterate_increase_default_two]
      have h : min (5 + 5 * (n + 2)) 15 = 15 := by omega
      rw [h]
      decide
  · rw [SleepParams.reset_period, iterate_increase_default_min]

/-- C5: after maybe_reset_sleep_period the sleep_period equals
min_sleep_period, and the whole value is left unchanged exactly when
sleep_period already equalled min_sleep_period. -/
theorem maybe_reset_sets_min (p : SleepParams) :
    p.maybe_reset_sleep_period.sleep_period = p.min_sleep_period ∧
    (p.maybe_reset_sleep_period = p ↔ p.sleep_period = p.min_sleep_period) := by
  refine ⟨SleepParams.reset_period p, ?_, SleepParams.reset_eq_self_of_eq p⟩
  intro h
  have h2 := SleepParams.reset_period p
  rw [h] at h2
  exact h2

/-- C6: the default SleepParams has sleep_period = 5 seconds,
max_sleep_period = 15 seconds, min_sleep_period = 5 seconds and
sleep_step = 5 seconds. -/
theorem default_sleep_params_values :
    SleepParams.default.sleep_period = Duration.from_secs 5 ∧
    SleepParams.default.max_sleep_period = Duration.from_secs 15 ∧
    SleepParams.default.min_sleep_period = Duration.from_secs 5 ∧
    SleepParams.default.sleep_step = Duration.from_secs 5 :=
  ⟨rfl, rfl, rfl, rfl⟩

/-- C7: the default value of the RetentionMode enum is RemoveAll. -/
theorem default_retention_mode :
    RetentionMode.default = RetentionMode.RemoveAll := rfl

/-- C8: resolving ScheduleOnce t against reference time now returns t when t
is strictly in the future relative to now, and fails with
CronError.NoTimestampsError when t ≤ now. -/
theorem resolve_schedule_once_spec (t now : Int) :
    (now < t → resolveScheduleOnce t now = Except.ok t) ∧
    (t ≤ now →
      resolveScheduleOnce t now = Except.error CronError.NoTimestampsError) := by
  constructor
  · intro h
    unfold resolveScheduleOnce
    rw [if_pos h]
  · intro h
    unfold resolveScheduleOnce
    rw [if_neg (not_lt.mpr h)]

/-- C8 witness: the resolution theorem instantiated at a future instant
(t = 7, now = 0) and at an elapsed instant (t = 0, now = 7). -/
theorem resolve_schedule_once_spec_witness :
    resolveScheduleOnce 7 0 = Except.ok 7 ∧
    resolveScheduleOnce 0 7 = Except.error CronError.NoTimestampsError :=
  ⟨(resolve_schedule_once_spec 7 0).1 (by decide),
   (resolve_schedule_once_spec 0 7).2 (by decide)⟩

/-- C9: for every SleepParams value, including ones with sleep_period
strictly below min_sleep_period, a call to maybe_reset_sleep_period leaves
sleep_period equal to min_sleep_period, so the operation is idempotent. -/
theorem maybe_reset_idempotent (p : SleepParams) :
    p.maybe_reset_sleep_period.sleep_period = p.min_sleep_period ∧
    p.maybe_reset_sleep_period.maybe_reset_sleep_period
      = p.maybe_reset_sleep_period :=
  ⟨SleepParams.reset_period p,
   SleepParams.reset_eq_self_of_eq _
     (by rw [SleepParams.reset_period, SleepParams.reset_min])⟩

/-- C10: both maybe_increase_sleep_period and maybe_reset_sleep_period modify
at most the field sleep_period: max_sleep_period, min_sleep_period and
sleep_step are unchanged by every call. -/
theorem sleep_ops_frame (p : SleepParams) :
    (p.maybe_increase_sleep_period.max_sleep_period = p.max_sleep_period ∧
     p.maybe_increase_sleep_period.min_sleep_period = p.min_sleep_period ∧
     p.maybe_increase_sleep_period.sleep_step = p.sleep_step) ∧
    (p.maybe_reset_sleep_period.max_sleep_period = p.max_sleep_period ∧
     p.maybe_reset_sleep_period.min_sleep_period = p.min_sleep_period ∧
     p.maybe_reset_sleep_period.sleep_step = p.sleep_step) :=
  ⟨⟨SleepParams.inc_max p, SleepParams.inc_min p, SleepParams.inc_step p⟩,
   ⟨SleepParams.reset_max p, SleepParams.reset_min p, SleepParams.reset_step p⟩⟩

/-
Modelled from the spec: the exclusive-claim protocol (spec sections 4.2-4.4
and 5). The worker loop and the atomic claim_next_ready operation live in the
blocking/asynk modules that are not present under src/, so the protocol is
embedded as an interleaving transition system: N workers race over M enqueued
tasks; a `claim` step atomically moves a New task to InProgress for one
worker, an `execute` step moves a task held by a worker to Finished and bumps
a counter keyed by task id (the spec's verification counter).
-/

/-- Status of one enqueued task: New (claimable), InProgress (held by exactly
the recorded worker), or Finished. -/
inductive TaskStatus (N : Nat) where
  | taskNew : TaskStatus N
  | inProgress (w : Fin N) : TaskStatus N
  | finished : TaskStatus N
deriving DecidableEq, Repr

/-- Modelled from the spec: the shared store as seen by the claim protocol —
the status of each of the M tasks, plus the per-task execution counter used
by the spec to verify exactly-once execution. -/
structure QueueState (M N : Nat) where
  tasks : Fin M → TaskStatus N
  execCount : Fin M → Nat

/-- Modelled from the spec: one atomic step of some worker. `claim` is the
store's atomic claim_next_ready: it requires the task to be New and moves it
to InProgress for the claiming worker, so two workers can never hold the same
task. `execute` finishes a held task and increments its execution counter. -/
inductive WorkerStep (M N : Nat) : QueueState M N → QueueState M N → Prop where
  | claim (s : QueueState M N) (w : Fin N) (i : Fin M)
      (h : s.tasks i = TaskStatus.taskNew) :
      WorkerStep M N s
        ⟨Function.update s.tasks i (TaskStatus.inProgress w), s.execCount⟩
  | execute (s : QueueState M N) (w : Fin N) (i : Fin M)
      (h : s.tasks i = TaskStatus.inProgress w) :
      WorkerStep M N s
        ⟨Function.update s.tasks i TaskStatus.finished,
         Function.update s.execCount i (s.execCount i + 1)⟩

/-- The initial store: all M tasks enqueued as New, no executions yet. -/
def initQueue (M N : Nat) : QueueState M N :=
  ⟨fun _ => TaskStatus.taskNew, fun _ => 0⟩

/-- States the system can reach from the initial store by interleaved worker
steps. -/
def QueueReachable (M N : Nat) (s : QueueState M N) : Prop :=
  Relation.ReflTransGen (WorkerStep M N) (initQueue M N) s

/-- A state in which no worker can take any further step. -/
def QueueTerminal (M N : Nat) (s : QueueState M N) : Prop :=
  ∀ s', ¬ WorkerStep M N s s'

/-- Remaining work in one task: 2 for New, 1 for InProgress, 0 for Finished. -/
def statusWeight {N : Nat} : TaskStatus N → Nat
  | TaskStatus.taskNew => 2
  | TaskStatus.inProgress _ => 1
  | TaskStatus.finished => 0

/-- Total remaining work of the system; every step strictly decreases it. -/
def queueMeasure (M N : Nat) (s : QueueState M N) : Nat :=
  Finset.univ.sum (fun i => statusWeight (s.tasks i))

/-- The counter invariant tying execution counts to task status: a task has
been executed once if it is Finished and zero times otherwise. -/
def CountInv (M N : Nat) (s : QueueState M N) : Prop :=
  ∀ i : Fin M,
    s.execCount i = (if s.tasks i = TaskStatus.finished then 1 else 0)

theorem countInv_init (M N : Nat) : CountInv M N (initQueue M N) := by
  intro i
  simp [initQueue]

theorem countInv_step {M N : Nat} {s s' : QueueState M N}
    (h : CountInv M N s) (hs : WorkerStep M N s s') : CountInv M N s' := by
  cases hs with
  | claim w i hi =>
    intro j
    by_cases hj : j = i
    · subst hj
      have hcount := h j
      rw [hi] at hcount
      simp at hcount
      simpa [Function.update_same] using hcount
    · simpa [Function.update_noteq hj] using h j
  | execute w i hi =>
    intro j
    by_cases hj : j = i
    · subst hj
      have hcount := h j
      rw [hi] at hcount
      simp at hcount
      simp [Function.update_same, hcount]
    · simpa [Function.update_noteq hj] using h j

theorem countInv_reachable {M N : Nat} {s : QueueState M N}
    (h : QueueReachable M N s) : CountInv M N s := by
  induction h with
  | refl => exact countInv_init M N
  | tail hab hbc ih => exact countInv_step ih hbc

theorem all_finished_of_terminal {M N : Nat} {s : QueueState M N}
    (hN : 0 < N) (ht : QueueTerminal M N s) (i : Fin M) :
    s.tasks i = TaskStatus.finished := by
  cases hsi : s.tasks i with
  | taskNew => exact absurd (WorkerStep.claim s ⟨0, hN⟩ i hsi) (ht _)
  | inProgress w => exact absurd (WorkerStep.execute s w i hsi) (ht _)
  | finished => rfl

theorem terminal_of_all_finished {M N : Nat} {s : QueueState M N}
    (hf : ∀ i, s.tasks i = TaskStatus.finished) : QueueTerminal M N s := by
  intro s' hs
  cases hs with
  | claim w i hi => rw [hf i] at hi; exact TaskStatus.noConfusion hi
  | execute w i hi => rw [hf i] at hi; exact TaskStatus.noConfusion hi

theorem sum_statusWeight_update_lt {M N : Nat} (f : Fin M → TaskStatus N)
    (i : Fin M) (v : TaskStatus N) (h : statusWeight v < statusWeight (f i)) :
    Finset.univ.sum (fun j => statusWeight (Function.update f i v j)) <
      Finset.univ.sum (fun j => statusWeight (f j)) := by
  apply Finset.sum_lt_sum
  · intro j _
    by_cases hj : j = i
    · subst hj
      rw [Function.update_same]
      exact Nat.le_of_lt h
    · rw [Function.update_noteq hj]
  · exact ⟨i, Finset.mem_univ i, by rw [Function.update_same]; exact h⟩

theorem queueMeasure_decreases {M N : Nat} {s s' : QueueState M N}
    (hs : WorkerStep M N s s') : queueMeasure M N s' < queueMeasure M N s := by
  cases hs with
  | claim w i hi =>
    apply sum_statusWeight_update_lt
    rw [hi]
    simp [statusWeight]
  | execute w i hi =>
    apply sum_statusWeight_update_lt
    rw [hi]
    simp [statusWeight]

/-- C1: in the interleaving model of the claim protocol, for every number of
workers N ≥ 1 racing over M enqueued tasks, each task is executed exactly
once: along every reachable state no task has been executed more than once
(no duplicate executions), every step strictly decreases the remaining-work
measure (so every run reaches a terminal state), and in a terminal state
every task's execution counter equals one (no lost tasks). -/
theorem every_task_executed_exactly_once (M N : Nat) (hN : 0 < N)
    (s : QueueState M N) (hs : QueueReachable M N s) :
    (∀ i, s.execCount i ≤ 1) ∧
    (∀ s', WorkerStep M N s s' → queueMeasure M N s' < queueMeasure M N s) ∧
    (QueueTerminal M N s → ∀ i, s.execCount i = 1) := by
  have hinv := countInv_reachable hs
  refine ⟨fun i => ?_, fun s' h => queueMeasure_decreases h, fun ht i => ?_⟩
  · rw [hinv i]
    split <;> simp
  · rw [hinv i, if_pos (all_finished_of_terminal hN ht i)]

/-- The one-task one-worker store after the worker has claimed task 0. -/
def midQueue : QueueState 1 1 :=
  ⟨Function.update (initQueue 1 1).tasks 0 (TaskStatus.inProgress 0),
   (initQueue 1 1).execCount⟩

/-- The one-task one-worker store after the claimed task was executed. -/
def doneQueue : QueueState 1 1 :=
  ⟨Function.update midQueue.tasks 0 TaskStatus.finished,
   Function.update midQueue.execCount 0 (midQueue.execCount 0 + 1)⟩

/-- C1 witness: one worker over one task, via the concrete run
claim-then-execute; in the resulting terminal store task 0 was executed
exactly once. -/
theorem every_task_executed_exactly_once_witness :
    doneQueue.execCount 0 = 1 := by
  have h1 : WorkerStep 1 1 (initQueue 1 1) midQueue :=
    WorkerStep.claim (initQueue 1 1) 0 0 rfl
  have hmid : midQueue.tasks 0 = TaskStatus.inProgress 0 := by
    simp [midQueue, initQueue]
  have h2 : WorkerStep 1 1 midQueue doneQueue :=
    WorkerStep.execute midQueue 0 0 hmid
  have hreach : QueueReachable 1 1 doneQueue :=
    Relation.ReflTransGen.head h1 (Relation.ReflTransGen.single h2)
  have hfin : ∀ i, doneQueue.tasks i = TaskStatus.finished := by
    intro i
    rw [Fin.eq_zero i]
    simp [doneQueue]
  exact (every_task_executed_exactly_once 1 1 (by decide) doneQueue
    hreach).2.2 (terminal_of_all_finished hfin) 0
